import Mathlib

/-
Verification of the rag-enabled-ubiq-genie pipeline services.

The Python worker services under Node/services are embedded shallowly:
pure string manipulation becomes Lean functions (Python strings are
Lean String values, with the Python primitives strip / split / in
re-implemented structurally over the underlying character list so that
concrete instances evaluate in the kernel), byte payloads become
List Nat, fallible library calls (JSON parsing, HTTP requests, speech
synthesis) become oracle parameters returning Option/Except, and each
stdin read loop becomes a structurally recursive function over the
finite list of read results, emitting an event trace (log lines and
stdout writes).  The orchestrator component (the conversational agent
app) is absent from the repository snapshot; the parts of it that
claims need are modelled from the specification and marked as such.
-/

namespace Genie

/-! ## Contiguous-subsequence primitives

Generic helpers used both for Python substring containment (over
characters) and for whole-word phrase matching (over words). -/

/-- Whether `l` begins with the pattern `pat`. -/
def seqStarts {α : Type} [DecidableEq α] : List α → List α → Bool
  | [], _ => true
  | _ :: _, [] => false
  | p :: ps, x :: xs => decide (p = x) && seqStarts ps xs

/-- Whether the pattern `pat` occurs contiguously somewhere in `l`. -/
def seqOccurs {α : Type} [DecidableEq α] (pat : List α) : List α → Bool
  | [] => pat.isEmpty
  | x :: xs => seqStarts pat (x :: xs) || seqOccurs pat xs

theorem seqStarts_iff_exists {α : Type} [DecidableEq α] (pat l : List α) :
    seqStarts pat l = true ↔ ∃ suf, l = pat ++ suf := by
  induction pat generalizing l with
  | nil => simp [seqStarts]
  | cons p ps ih =>
    cases l with
    | nil => simp [seqStarts]
    | cons x xs =>
      simp only [seqStarts, Bool.and_eq_true, decide_eq_true_eq, ih]
      constructor
      · rintro ⟨rfl, suf, rfl⟩
        exact ⟨suf, rfl⟩
      · rintro ⟨suf, h⟩
        injection h with h1 h2
        exact ⟨h1.symm, suf, h2⟩

theorem seqOccurs_iff_exists {α : Type} [DecidableEq α] (pat l : List α) :
    seqOccurs pat l = true ↔ ∃ pre suf, l = pre ++ pat ++ suf := by
  induction l with
  | nil =>
    simp only [seqOccurs, List.isEmpty_iff]
    constructor
    · rintro rfl
      exact ⟨[], [], rfl⟩
    · rintro ⟨pre, suf, h⟩
      rcases List.append_eq_nil.mp h.symm with ⟨h1, h2⟩
      exact (List.append_eq_nil.mp h1).2
  | cons x xs ih =>
    simp only [seqOccurs, Bool.or_eq_true, seqStarts_iff_exists, ih]
    constructor
    · rintro (⟨suf, h⟩ | ⟨pre, suf, h⟩)
      · exact ⟨[], suf, by simpa using h⟩
      · exact ⟨x :: pre, suf, by simp [h]⟩
    · rintro ⟨pre, suf, h⟩
      cases pre with
      | nil => exact Or.inl ⟨suf, by simpa using h⟩
      | cons y pre' =>
        injection h with h1 h2
        exact Or.inr ⟨pre', suf, h2⟩

/-! ## Python string primitives

Structural re-implementations of the Python string operations the
services use, over the character list of a Lean String.  Python
truthiness of a string is nonemptiness; `s.strip()` removes leading and
trailing whitespace; `sub in s` is contiguous-substring containment;
`s.split(sep, 1)[1]` is everything after the first occurrence of `sep`
(callers guard on `sep in s`); `s.split(sep)[0]` is everything before
the first occurrence. -/

/-- List-level Python `strip`. -/
def pyStripL (l : List Char) : List Char :=
  ((l.dropWhile Char.isWhitespace).reverse.dropWhile Char.isWhitespace).reverse

/-- Python `s.strip()`. -/
def pyStrip (s : String) : String := (pyStripL s.toList).asString

/-- Python `sub in s` (all needles used by the services are nonempty). -/
def pyContains (s sub : String) : Bool := seqOccurs sub.toList s.toList

/-- Everything after the first occurrence of the pattern, at the list
level; empty when the pattern does not occur. -/
def afterFirst (pat : List Char) : List Char → List Char
  | [] => []
  | c :: cs =>
    if seqStarts pat (c :: cs) then (c :: cs).drop pat.length
    else afterFirst pat cs

/-- Everything before the first occurrence of the pattern, at the list
level; the whole list when the pattern does not occur. -/
def beforeFirst (pat : List Char) : List Char → List Char
  | [] => []
  | c :: cs =>
    if seqStarts pat (c :: cs) then []
    else c :: beforeFirst pat cs

/-- Python `s.split(sep, 1)[1]`. -/
def pyAfter (s sep : String) : String := (afterFirst sep.toList s.toList).asString

/-- Python `s.split(sep)[0]`. -/
def pyBefore (s sep : String) : String := (beforeFirst sep.toList s.toList).asString

/-! ## TTS worker: text_to_speech_ibm.py

The synthesizer (IBM Watson `synthesize(...).get_result().content`) is
an oracle `String → Except String (List Nat)`: success yields the PCM
bytes, failure models a raised exception.  File-system side effects
(the WAV/raw log files) carry no pipeline data and are omitted; stderr
style debug prints are collapsed to one trace event per branch that a
claim depends on. -/

/-- Events observable from one `transcribe_speech` call: PCM bytes
written to stdout, a logged primary-synthesis error, and a logged
failure of the fallback synthesis. -/
inductive TtsEvent
  | audioOut (bytes : List Nat)
  | logError (msg : String)
  | logFallbackFailed (msg : String)
  deriving Repr, DecidableEq

/-- Metadata markers stripped from inbound text (text_to_speech_ibm.py
line 38). -/
def metadata_markers : List String :=
  ["[confidence:", "[DEBUG", "[IBM]", "Agent ->", "->"]

/-- One iteration of the marker-stripping loop (lines 39-41):
`clean_text = clean_text.split(marker)[0].strip()` when the marker
occurs. -/
def stripMarker (s : String) (marker : String) : String :=
  if pyContains s marker then pyStrip (pyBefore s marker) else s

/-- The cleaning pipeline of `transcribe_speech` before the empty-text
guard (lines 30-43): strip, drop an `Agent -> ...::` routing envelope,
then strip each metadata marker in order. -/
def cleaned_pre (text : String) : String :=
  let c := pyStrip text
  let c := if pyContains c "Agent ->" && pyContains c "::" then
      pyStrip (pyAfter c "::")
    else c
  metadata_markers.foldl stripMarker c

/-- The value of `clean_text` after the empty-text guard (lines 45-48):
an empty or whitespace-only cleaned text is replaced by a default
phrase. -/
def clean_text_of (text : String) : String :=
  let c := cleaned_pre text
  if c = "" || pyStrip c = "" then "I'm here to assist you." else c

/-- The text actually passed to the synthesizer (line 62):
`clean_text.strip() if clean_text.strip() else "Hello there."`. -/
def synthesize_text_of (text : String) : String :=
  let c := clean_text_of text
  if pyStrip c = "" then "Hello there." else pyStrip c

/-- The fallback message synthesized when the primary attempt raises
(line 96). -/
def fallback_text : String := "I'm sorry, there was an error processing that."

/-- Embedding of `transcribe_speech` (lines 25-112): clean the text,
synthesize, write the PCM to stdout and return `true`; on failure, log
and attempt the fallback message, writing its audio when that succeeds,
otherwise only logging; return `false` on any failure. -/
def transcribe_speech (synth : String → Except String (List Nat))
    (text : String) : List TtsEvent × Bool :=
  match synth (synthesize_text_of text) with
  | .ok audio => ([.audioOut audio], true)
  | .error e =>
    match synth fallback_text with
    | .ok fb => ([.logError e, .audioOut fb], false)
    | .error e2 => ([.logError e, .logFallbackFailed e2], false)

/-- PCM payloads a trace wrote to stdout, in order. -/
def ttsAudioWrites (evs : List TtsEvent) : List (List Nat) :=
  evs.filterMap fun e => match e with
    | .audioOut b => some b
    | _ => none

/-! ## RAG worker: text_generation/rag_service.py

The vectorstore similarity search and the local LLM HTTP endpoint are
oracles; `json.loads` on one stdin line is represented by the line
already carrying its parse outcome (empty/whitespace, a JSON decode
failure, or a parsed object whose fields the loop accesses). -/

/-- A parsed JSON message as the stdin loop accesses it:
`message['content']` raises KeyError when the key is absent (hence
Option), `message.get('peerName', 'User')` defaults when absent. -/
structure RagMsg where
  content : Option String
  peerName : Option String
  deriving Repr, DecidableEq

/-- One stdin line as the loop observes it (rag_service.py lines
248-258): empty or whitespace-only, a line json.loads rejects, or a
parsed JSON object. -/
inductive RagLine
  | emptyWs
  | badJson
  | msg (m : RagMsg)

/-- The service state the loop consults: the optional vectorstore
(similarity_search as an oracle returning page contents or raising) and
the local LLM server (POST /api/generate as an oracle on the full
prompt, errors covering connection failure, timeout, bad status and bad
response format). -/
structure RAGService where
  vectorstore : Option (String → Except String (List String))
  llmServer : String → Except String String

/-- Embedding of `RAGService.get_context_for_query` (lines 180-191):
empty string when there is no vectorstore, the joined page contents of
the similarity search when it succeeds, empty string when it raises. -/
def get_context_for_query (svc : RAGService) (query : String) : String :=
  match svc.vectorstore with
  | none => ""
  | some search =>
    match search query with
    | .ok docs => String.intercalate "\n" docs
    | .error _ => ""

/-- Prompt construction of `RAGService.query_ollama` (lines 126-129):
the Context section is present exactly when the context string is
nonempty (Python truthiness). -/
def full_prompt (system_prompt context prompt : String) : String :=
  if context ≠ "" then
    system_prompt ++ "\n\nContext:\n" ++ context ++ "\n\nQuestion: " ++ prompt
  else
    system_prompt ++ "\n\nQuestion: " ++ prompt

/-- Embedding of `RAGService.query_ollama` (lines 123-178): build the
full prompt and consult the LLM server oracle; every failure mode
(connection error, timeout, bad status, invalid response format) is
re-raised as an exception, i.e. an `error` value. -/
def query_ollama (svc : RAGService) (prompt context system_prompt : String) :
    Except String String :=
  svc.llmServer (full_prompt system_prompt context prompt)

/-- Embedding of `RAGService._initialize_vectorstore` (lines 47-87):
no documents or no loadable documents yield no vectorstore (general
knowledge mode); otherwise the vectorstore is built from the split
texts of the documents that loaded.  Document URLs, the per-document
loader, the text splitter and FAISS.from_texts are parameters. -/
def initialize_vectorstore (docs_metadata : List String)
    (load_document : String → Except String String)
    (split_text : String → List String)
    (from_texts : List String → (String → Except String (List String))) :
    Option (String → Except String (List String)) :=
  if docs_metadata.isEmpty then none
  else
    let documents := docs_metadata.filterMap fun d => (load_document d).toOption
    if documents.isEmpty then none
    else some (from_texts (documents.flatMap split_text))

/-- Events observable from the stdin loop: a line printed to stdout, a
logged JSON decode error (lines 296-298), and a logged generic
processing error (lines 299-301). -/
inductive RagEvent
  | out (line : String)
  | logBadJson
  | logProcessError (msg : String)
  deriving Repr, DecidableEq

/-- The routed reply format (lines 284 and 292):
`Agent -> {peerName}:: {body}` with peerName defaulting to User. -/
def agentReply (peerName : Option String) (body : String) : String :=
  "Agent -> " ++ peerName.getD "User" ++ ":: " ++ body

/-- Body of the error response sent when the LLM query raises
(line 292). -/
def rag_error_body : String :=
  "I apologize, but I encountered an error processing your request."

/-- Processing of one parsed message (lines 262-294): read
`message['content']` (KeyError when absent escapes to the generic
handler), fetch context, query the LLM; a successful query prints the
routed response, a failed query prints the routed error response. -/
def processMsg (svc : RAGService) (preprompt : String) (m : RagMsg) :
    Except String (List RagEvent) :=
  match m.content with
  | none => .error "KeyError: content"
  | some c =>
    let query := pyStrip c
    let context := get_context_for_query svc query
    match query_ollama svc query context preprompt with
    | .ok resp => .ok [.out (agentReply m.peerName resp)]
    | .error _ => .ok [.out (agentReply m.peerName rag_error_body)]

/-- One iteration of the stdin loop (lines 245-306): empty or
whitespace-only lines are skipped silently; a JSON decode failure is
logged and skipped; any exception from message processing is logged and
skipped.  Every branch falls through to the next iteration. -/
def ragStep (svc : RAGService) (preprompt : String) : RagLine → List RagEvent
  | .emptyWs => []
  | .badJson => [.logBadJson]
  | .msg m =>
    match processMsg svc preprompt m with
    | .ok evs => evs
    | .error e => [.logProcessError e]

/-- The stdin loop over a finite stream of lines: the concatenated
event traces of the iterations. -/
def runRag (svc : RAGService) (preprompt : String) : List RagLine → List RagEvent
  | [] => []
  | l :: rest => ragStep svc preprompt l ++ runRag svc preprompt rest

/-! ## STT client: speech_to_text/transcribe_local.py

The stdin audio loop (lines 111-146) reads up to 4800 bytes per
iteration; a read result is a `List Nat`.  The WebSocket connection
status at each iteration and the outcome of each send are oracles
indexed by the iteration number. -/

/-- Events observable from the audio loop: a frame sent to the STT
server, a logged send error (the loop continues), and the logged
message `WebSocket not connected, dropping audio data`. -/
inductive SttEvent
  | sent (frame : List Nat)
  | logSendError (msg : String)
  | logDropped
  deriving Repr, DecidableEq

/-- The audio loop from iteration `i`: an empty read result breaks the
loop (line 118-119); otherwise the frame is sent when connected (a send
exception is logged and the loop continues, lines 127-133), or dropped
with a log when not connected (lines 134-135). -/
def sttRunAux (conn : Nat → Bool) (send : Nat → List Nat → Except String Unit) :
    Nat → List (List Nat) → List SttEvent
  | _, [] => []
  | i, r :: rest =>
    if r.isEmpty then []
    else
      (if conn i then
        match send i r with
        | .ok _ => [SttEvent.sent r]
        | .error e => [SttEvent.logSendError e]
      else [SttEvent.logDropped]) ++ sttRunAux conn send (i + 1) rest

/-- The audio loop started at iteration 0. -/
def sttRun (conn : Nat → Bool) (send : Nat → List Nat → Except String Unit)
    (reads : List (List Nat)) : List SttEvent :=
  sttRunAux conn send 0 reads

/-! ## Local AI server: local_ai_server.py

The two websocket endpoints maintain module-level connection
registries.  A registry is an association list keyed by client id (the
Python dict); the handler body performs only websocket I/O and never
touches the registry, so a handler run is: insert on accept, loop until
an exception (client disconnect or a processing error), remove in the
finally block. -/

/-- A connection registry: client id to connection token. -/
def Registry : Type := List (String × Nat)

/-- Python `del reg[cid]` (when the key is absent the raised KeyError
leaves the registry unchanged, which the model folds into a plain
removal). -/
def regRemove (reg : Registry) (cid : String) : Registry :=
  match reg with
  | [] => []
  | p :: rest =>
    if p.1 = cid then regRemove rest cid else p :: regRemove rest cid

/-- Python dict assignment `reg[cid] = tok` (overwrites any previous
binding for the key). -/
def regInsert (reg : Registry) (cid : String) (tok : Nat) : Registry :=
  (cid, tok) :: regRemove reg cid

/-- Registry lookup. -/
def regFind (reg : Registry) (cid : String) : Option Nat :=
  match reg with
  | [] => none
  | p :: rest => if p.1 = cid then some p.2 else regFind rest cid

/-- How a handler loop ends: the client disconnected (receive raised)
or the body raised while processing; both reach the finally block. -/
inductive HandlerExit
  | clientClosed (msg : String)
  | bodyError (msg : String)
  deriving Repr, DecidableEq

/-- The registry while the handler body runs, right after
`await websocket.accept()` and the insertion. -/
def handlerEntry (reg : Registry) (cid : String) (tok : Nat) : Registry :=
  regInsert reg cid tok

/-- A complete handler run (lines 12-31 and 33-52): insert on accept,
then whatever way the loop exits (`e : HandlerExit`), the finally block
deletes the entry. -/
def runWsHandler (reg : Registry) (cid : String) (tok : Nat)
    (_e : HandlerExit) : Registry :=
  regRemove (handlerEntry reg cid tok) cid

/-- The module-level state of local_ai_server.py: the two connection
registries (lines 9-10). -/
structure ServerState where
  stt_connections : Registry
  tts_connections : Registry

/-- Embedding of `websocket_stt_endpoint` (lines 12-31) as its effect
on the server state. -/
def websocket_stt_endpoint (st : ServerState) (client_id : String)
    (tok : Nat) (e : HandlerExit) : ServerState :=
  { st with stt_connections := runWsHandler st.stt_connections client_id tok e }

/-- Embedding of `websocket_tts_endpoint` (lines 33-52) as its effect
on the server state. -/
def websocket_tts_endpoint (st : ServerState) (client_id : String)
    (tok : Nat) (e : HandlerExit) : ServerState :=
  { st with tts_connections := runWsHandler st.tts_connections client_id tok e }

/-! ## Wake-Word Gate

The conversational agent app that implements `isWakeWord` is not part
of the repository snapshot (only its tests are), so the gate is
modelled from the specification. -/

/-- Normalization of one character: case folding, with every
non-alphanumeric character treated as a word separator. -/
def normChar (c : Char) : Char :=
  if c.isAlphanum then c.toLower else ' '

/-- Splitting a normalized character list into its nonempty words
(`cur` accumulates the characters of the current word, reversed). -/
def tokensGo (cur : List Char) : List Char → List (List Char)
  | [] => if cur.isEmpty then [] else [cur.reverse]
  | c :: cs =>
    if c = ' ' then
      if cur.isEmpty then tokensGo [] cs else cur.reverse :: tokensGo [] cs
    else tokensGo (c :: cur) cs

/-- Modelled from the spec: the case-insensitive whole-word
normalization of a transcript — lower-cased, split into maximal runs of
alphanumeric characters (spec 4.2: a wake phrase must appear as a whole
word, not as a substring of an unrelated word). -/
def tokensOf (s : String) : List (List Char) :=
  tokensGo [] (s.toList.map normChar)

/-- Modelled from the spec: `isAddressed` / `isWakeWord` of the
conversational agent app, which is absent from the repository snapshot.
True iff the transcript, case-insensitively normalized, contains some
configured wake phrase as a contiguous run of whole words; empty and
whitespace-only transcripts (no tokens) are never addressed, and a
wake phrase that normalizes to no tokens matches nothing. -/
def isWakeWord (wakeWords : List String) (transcript : String) : Bool :=
  let ts := tokensOf transcript
  !ts.isEmpty && wakeWords.any fun w =>
    let ws := tokensOf w
    !ws.isEmpty && seqOccurs ws ts

/-- The specification-side reading of a whole-word match: the wake
phrase has at least one word and its word sequence occurs contiguously
in the transcript's word sequence. -/
def wholeWordMatch (w t : String) : Prop :=
  tokensOf w ≠ [] ∧ ∃ pre suf, tokensOf t = pre ++ tokensOf w ++ suf

/-! ## Pipeline Orchestrator per-peer state machine

The orchestrator (per-peer buffering, turn detection and request
dispatch) is likewise absent from the repository snapshot; the state
machine is modelled from spec sections 3, 4.1, 4.6 and 8. -/

/-- Modelled from the spec: the per-peer phases (spec 3,
`PeerSession.state`). -/
inductive Phase
  | Idle
  | Buffering
  | AwaitingTranscript
  | AwaitingAnswer
  | AwaitingSpeech
  deriving Repr, DecidableEq

/-- Modelled from the spec: the per-peer session record (spec 3):
the accumulated audio frames, the in-flight RAG+LLM/TTS request id,
the phase, and a counter for generating fresh request ids. -/
structure PeerSession where
  audioBuffer : List (List Nat)
  pendingRequestId : Option Nat
  phase : Phase
  nextRequestId : Nat
  deriving Repr, DecidableEq

/-- Modelled from the spec: the events one peer's state machine
consumes (spec 4.6): an inbound audio frame, the silence-window
turn-end timer, the STT transcript (with the wake-word gate's verdict),
the LLM answer, the synthesized audio, and a terminal error. -/
inductive PeerEvent
  | frame (f : List Nat)
  | turnEnd
  | transcript (addressed : Bool) (text : String)
  | answer (text : String)
  | synthesisResult (audio : List Nat)
  | errorEvent
  deriving Repr, DecidableEq

/-- Modelled from the spec: a request dispatched to a worker
(spec 4.6/6). -/
inductive Dispatch
  | sttDispatch (audio : List (List Nat))
  | llmDispatch (text : String) (rid : Nat)
  | ttsDispatch (text : String) (rid : Nat)
  deriving Repr, DecidableEq

/-- Modelled from the spec: one transition of the per-peer state
machine (spec 4.6), returning the new session and the requests
dispatched by the transition.  A frame is always buffered and never
dispatched by itself (spec 4.1); the turn-end evaluation only fires
while Buffering with no pending request (spec 3 invariant wording: a
new turn may not start while pendingRequestId is set); a transcript is
consumed only in AwaitingTranscript, an answer only in AwaitingAnswer;
a synthesis result or an error resolves the pending request. -/
def step (s : PeerSession) : PeerEvent → PeerSession × List Dispatch
  | .frame f =>
    ({ s with audioBuffer := s.audioBuffer ++ [f],
              phase := if s.phase = .Idle then .Buffering else s.phase }, [])
  | .turnEnd =>
    if s.phase = .Buffering ∧ s.pendingRequestId = none then
      ({ s with audioBuffer := [], phase := .AwaitingTranscript },
        [.sttDispatch s.audioBuffer])
    else (s, [])
  | .transcript addressed text =>
    if s.phase = .AwaitingTranscript then
      if addressed then
        ({ s with phase := .AwaitingAnswer,
                  pendingRequestId := some s.nextRequestId,
                  nextRequestId := s.nextRequestId + 1 },
          [.llmDispatch text s.nextRequestId])
      else ({ s with phase := .Idle }, [])
    else (s, [])
  | .answer text =>
    if s.phase = .AwaitingAnswer then
      ({ s with phase := .AwaitingSpeech,
                pendingRequestId := some s.nextRequestId,
                nextRequestId := s.nextRequestId + 1 },
        [.ttsDispatch text s.nextRequestId])
    else (s, [])
  | .synthesisResult _ =>
    if s.phase = .AwaitingSpeech then
      ({ s with phase := .Idle, pendingRequestId := none }, [])
    else (s, [])
  | .errorEvent =>
    ({ s with phase := .Idle, pendingRequestId := none }, [])

/-- The initial session of a freshly joined peer (spec 3 lifecycle). -/
def initSession : PeerSession :=
  { audioBuffer := [], pendingRequestId := none, phase := .Idle,
    nextRequestId := 0 }

/-- The session after consuming a sequence of events from the initial
session. -/
def runPeer (evs : List PeerEvent) : PeerSession :=
  evs.foldl (fun s e => (step s e).1) initSession

/-- The pending-request phase invariant: a pending request exists only
in the AwaitingAnswer and AwaitingSpeech phases. -/
def PendingInv (s : PeerSession) : Prop :=
  s.pendingRequestId.isSome = true →
    s.phase = .AwaitingAnswer ∨ s.phase = .AwaitingSpeech

/-! ## Spec-side binary framing codec

The framing the specification describes for binary audio payloads
(section 4.4), as a refinement target to compare against what the
worker code actually reads and writes. -/

/-- Modelled from the spec: a 4-byte little-endian encoding of a
length. -/
def le4 (n : Nat) : List Nat :=
  [n % 256, n / 256 % 256, n / 256 ^ 2 % 256, n / 256 ^ 3 % 256]

/-- Modelled from the spec: the framed wire format of section 4.4 — a
leading sentinel byte, a 4-byte little-endian length, then exactly that
many raw payload bytes. -/
def encodeFramed (sentinel : Nat) (payload : List Nat) : List Nat :=
  sentinel :: le4 payload.length ++ payload

/-- Modelled from the spec: decoding a framed wire record back into its
payload; fails when the wire is shorter than a header or the length
field does not match the remaining bytes. -/
def decodeFramed (wire : List Nat) : Option (List Nat) :=
  match wire with
  | _s :: a :: b :: c :: d :: rest =>
    if rest.length = a + 256 * b + 256 ^ 2 * c + 256 ^ 3 * d then some rest
    else none
  | _ => none

/-! ## Theorems -/

theorem normChar_of_whitespace (c : Char) (h : c.isWhitespace = true) :
    normChar c = ' ' := by
  simp only [Char.isWhitespace] at h
  simp only [Bool.or_eq_true, decide_eq_true_eq] at h
  rcases h with ((rfl | rfl) | rfl) | rfl <;> decide

theorem tokensGo_all_space (l : List Char) (h : ∀ c ∈ l, c = ' ') :
    tokensGo [] l = [] := by
  induction l with
  | nil => rfl
  | cons c cs ih =>
    have hc : c = ' ' := h c (by simp)
    subst hc
    simp only [tokensGo, if_pos rfl, List.isEmpty_nil, if_true]
    exact ih fun c hc => h c (by simp [hc])

theorem tokensOf_whitespace_only (t : String)
    (h : ∀ c ∈ t.toList, c.isWhitespace = true) : tokensOf t = [] := by
  unfold tokensOf
  apply tokensGo_all_space
  intro c hc
  rcases List.mem_map.mp hc with ⟨d, hd, rfl⟩
  exact normChar_of_whitespace d (h d hd)

/-- Claim C1: the wake-word check returns true iff the
case-insensitively normalized transcript contains a configured wake
phrase as a whole-word match; every whitespace-only (in particular,
empty) transcript is rejected, and a transcript where a wake word
appears only as a prefix of a longer word is rejected, as with the
wake phrase hey agent against the transcript hey agentive text. -/
theorem wake_gate_whole_word (wakeWords : List String) (t : String) :
    (isWakeWord wakeWords t = true ↔ ∃ w ∈ wakeWords, wholeWordMatch w t) ∧
    ((∀ c ∈ t.toList, c.isWhitespace = true) → isWakeWord wakeWords t = false) ∧
    isWakeWord ["hey agent"] "Hey Agent, what time is it" = true ∧
    isWakeWord ["hey agent"] "hey agentive text" = false := by
  refine ⟨?_, ?_, by decide, by decide⟩
  · constructor
    · intro h
      simp only [isWakeWord, Bool.and_eq_true, List.any_eq_true,
        Bool.not_eq_true', List.isEmpty_eq_false] at h
      obtain ⟨hne, w, hw, hws, hocc⟩ := h
      exact ⟨w, hw, hws, (seqOccurs_iff_exists _ _).mp hocc⟩
    · rintro ⟨w, hw, hws, pre, suf, hdec⟩
      simp only [isWakeWord, Bool.and_eq_true, List.any_eq_true,
        Bool.not_eq_true', List.isEmpty_eq_false]
      refine ⟨?_, w, hw, hws, (seqOccurs_iff_exists _ _).mpr ⟨pre, suf, hdec⟩⟩
      rw [hdec]
      simp only [ne_eq, List.append_eq_nil, not_and]
      intro h1 h2
      exact hws h1.2
  · intro h
    have ht : tokensOf t = [] := tokensOf_whitespace_only t h
    simp [isWakeWord, ht]

/-- Witness for C1 at concrete inputs: a whitespace-only transcript is
rejected. -/
theorem wake_gate_whole_word_witness :
    (∀ c ∈ "  ".toList, c.isWhitespace = true) ∧
    isWakeWord ["hey agent"] "  " = false :=
  ⟨by decide, (wake_gate_whole_word ["hey agent"] "  ").2.1 (by decide)⟩

theorem pendingInv_step (s : PeerSession) (e : PeerEvent) (h : PendingInv s) :
    PendingInv (step s e).1 := by
  cases e with
  | frame f =>
    intro hp
    simp only [step] at hp ⊢
    rcases h hp with h1 | h1 <;> simp [h1]
  | turnEnd =>
    by_cases hc : s.phase = Phase.Buffering ∧ s.pendingRequestId = none
    · intro hp
      simp only [step, if_pos hc] at hp
      rw [hc.2] at hp
      simp at hp
    · simpa [step, if_neg hc] using h
  | transcript addressed text =>
    by_cases hc : s.phase = Phase.AwaitingTranscript
    · cases addressed with
      | true => intro hp; simp [step, hc]
      | false =>
        intro hp
        simp only [step, hc, if_pos rfl] at hp
        simp only [Bool.false_eq_true, if_false] at hp
        rcases h hp with h1 | h1 <;> rw [hc] at h1 <;> simp at h1
    · simpa [step, if_neg hc] using h
  | answer text =>
    by_cases hc : s.phase = Phase.AwaitingAnswer
    · intro hp; simp [step, hc]
    · simpa [step, if_neg hc] using h
  | synthesisResult audio =>
    by_cases hc : s.phase = Phase.AwaitingSpeech
    · intro hp; simp [step, hc] at hp
    · simpa [step, if_neg hc] using h
  | errorEvent =>
    intro hp; simp [step] at hp

theorem pendingInv_runPeer (evs : List PeerEvent) : PendingInv (runPeer evs) := by
  suffices h : ∀ s, PendingInv s → PendingInv (evs.foldl (fun s e => (step s e).1) s) by
    exact h initSession fun hp => by simp [initSession] at hp
  induction evs with
  | nil => exact fun s hs => hs
  | cons e rest ih => exact fun s hs => ih _ (pendingInv_step s e hs)

/-- Claim C2: for every reachable per-peer state, the pending request
is unique, audio frames arriving while a request is pending are
buffered and produce no dispatch, and no new turn starts while the
pending request is set: neither the turn-end timer nor a transcript
event dispatches a new STT or LLM request until the pending request
resolves. -/
theorem single_pending_request (evs : List PeerEvent) (s : PeerSession)
    (hs : s = runPeer evs) :
    (∀ r r', s.pendingRequestId = some r → s.pendingRequestId = some r' → r = r') ∧
    (∀ f, (step s (.frame f)).2 = [] ∧
      (step s (.frame f)).1.audioBuffer = s.audioBuffer ++ [f] ∧
      (step s (.frame f)).1.pendingRequestId = s.pendingRequestId) ∧
    (s.pendingRequestId.isSome = true →
      (step s .turnEnd).2 = [] ∧
      ∀ a t, (step s (.transcript a t)).2 = []) := by
  refine ⟨?_, ?_, ?_⟩
  · intro r r' h h'
    rw [h] at h'
    exact (Option.some.injEq _ _ ▸ h').symm ▸ rfl
  · intro f
    refine ⟨rfl, rfl, rfl⟩
  · intro hp
    have hinv := pendingInv_runPeer evs
    rw [← hs] at hinv
    have hph := hinv hp
    constructor
    · have hc : ¬(s.phase = Phase.Buffering ∧ s.pendingRequestId = none) := by
        rintro ⟨h1, h2⟩
        rw [h2] at hp
        simp at hp
      simp [step, if_neg hc]
    · intro a t
      have hc : ¬s.phase = Phase.AwaitingTranscript := by
        rcases hph with h1 | h1 <;> simp [h1]
      simp [step, if_neg hc]

/-- Witness for C2 at a concrete reachable state: after a buffered
frame, a turn end and an addressed transcript, a request is pending and
a further turn-end event dispatches nothing. -/
theorem single_pending_request_witness :
    (runPeer [.frame [1], .turnEnd, .transcript true "hey agent hello"]).pendingRequestId.isSome
        = true ∧
    (step (runPeer [.frame [1], .turnEnd, .transcript true "hey agent hello"])
        PeerEvent.turnEnd).2 = [] := by
  refine ⟨by decide, ?_⟩
  exact (((single_pending_request
    [.frame [1], .turnEnd, .transcript true "hey agent hello"] _ rfl).2.2) (by decide)).1

/-- Claim C3: a line that json.loads rejects is logged and skipped, and
the reader goes on to process every subsequent line exactly as it would
have without the bad line; no unparsable line terminates the loop or
escapes it. -/
theorem rag_reader_skips_bad_json (svc : RAGService) (pre : String)
    (l1 l2 : List RagLine) :
    runRag svc pre (l1 ++ RagLine.badJson :: l2) =
      runRag svc pre l1 ++ RagEvent.logBadJson :: runRag svc pre l2 := by
  induction l1 with
  | nil => simp [runRag, ragStep]
  | cons l rest ih => simp [runRag, ih]

/-- Counterexample to C4 as stated: a zero-length read does not leave
the consumer accepting subsequent frames — it terminates the STT audio
loop, so a later nonempty frame is never sent even on a healthy
connection. -/
theorem stt_zero_length_read_stops_loop :
    sttRun (fun _ => true) (fun _ _ => Except.ok ()) [[], [1, 2]] = [] ∧
    SttEvent.sent [1, 2] ∉ sttRun (fun _ => true) (fun _ _ => Except.ok ()) [[], [1, 2]] :=
  ⟨rfl, by decide⟩

/-- Claim C4 as amended: a zero-length read terminates the STT audio
loop as end of stream rather than being skipped; a frame whose send
raises is logged as non-fatal and the loop continues with subsequent
frames; and in the RAG reader, an empty or whitespace-only line is
skipped and the loop continues. -/
theorem audio_loop_error_handling (conn : Nat → Bool)
    (send : Nat → List Nat → Except String Unit) (i : Nat)
    (r : List Nat) (rest : List (List Nat)) (e : String)
    (svc : RAGService) (pre : String) (lines : List RagLine)
    (hr : r ≠ []) (hc : conn i = true) (hs : send i r = .error e) :
    sttRunAux conn send i ([] :: rest) = [] ∧
    sttRunAux conn send i (r :: rest) =
      SttEvent.logSendError e :: sttRunAux conn send (i + 1) rest ∧
    runRag svc pre (RagLine.emptyWs :: lines) = runRag svc pre lines := by
  refine ⟨rfl, ?_, by simp [runRag, ragStep]⟩
  have hre : r.isEmpty = false := by simpa [List.isEmpty_eq_false] using hr
  simp [sttRunAux, hre, hc, hs]

/-- Witness for the amended C4 at concrete inputs: a send failure on
the first frame is logged and the (empty) remainder of the stream is
still processed. -/
theorem audio_loop_error_handling_witness :
    sttRunAux (fun _ => true) (fun _ _ => Except.error "broken pipe") 0 [[1]] =
      [SttEvent.logSendError "broken pipe"] := by
  have h := audio_loop_error_handling (fun _ => true)
    (fun _ _ => Except.error "broken pipe") 0 [1] [] "broken pipe"
    ⟨none, fun _ => Except.error "down"⟩ "" [] (by decide) rfl rfl
  simpa using h.2.1

/-- Counterexample to C5 as stated: when a turn's synthesis fails and
the fallback synthesis also fails, the TTS worker writes nothing to its
output channel — the peer gets silence, not a fallback notification. -/
theorem tts_double_failure_silent :
    ttsAudioWrites (transcribe_speech (fun _ => Except.error "connection failed")
      "hello").1 = [] := rfl

/-- Claim C5 as amended: when the LLM query raises, the RAG worker
always emits a non-empty routed error message for the turn; when
synthesis raises, the TTS worker attempts one fallback synthesis and
emits its audio when that succeeds; but when the fallback synthesis
also raises, the turn produces no output. -/
theorem turn_failure_fallback (svc : RAGService) (pre : String) (m : RagMsg)
    (c e : String) (synth : String → Except String (List Nat))
    (text e' : String)
    (hc : m.content = some c)
    (hll : svc.llmServer (full_prompt pre
      (get_context_for_query svc (pyStrip c)) (pyStrip c)) = .error e)
    (hp : synth (synthesize_text_of text) = .error e') :
    (ragStep svc pre (.msg m) =
        [RagEvent.out (agentReply m.peerName rag_error_body)] ∧
      (agentReply m.peerName rag_error_body).length > 0) ∧
    (∀ fb, synth fallback_text = .ok fb →
      ttsAudioWrites (transcribe_speech synth text).1 = [fb]) ∧
    (∀ e2, synth fallback_text = .error e2 →
      ttsAudioWrites (transcribe_speech synth text).1 = []) := by
  refine ⟨⟨?_, ?_⟩, ?_, ?_⟩
  · simp [ragStep, processMsg, hc, query_ollama, hll]
  · have h9 : ("Agent -> ").length = 9 := rfl
    simp only [agentReply, String.length_append]
    omega
  · intro fb hfb
    simp [transcribe_speech, hp, hfb, ttsAudioWrites]
  · intro e2 hfb
    simp [transcribe_speech, hp, hfb, ttsAudioWrites]

/-- Witness for the amended C5 at concrete inputs: a failing LLM query
yields the routed apology line. -/
theorem turn_failure_fallback_witness :
    ragStep ⟨none, fun _ => Except.error "llm down"⟩ "" (.msg ⟨some "hi", none⟩) =
      [RagEvent.out
        "Agent -> User:: I apologize, but I encountered an error processing your request."] := by
  have h := turn_failure_fallback ⟨none, fun _ => Except.error "llm down"⟩ ""
    ⟨some "hi", none⟩ "hi" "llm down" (fun _ => Except.error "tts down")
    "hello" "tts down" rfl rfl rfl
  simpa [agentReply, rag_error_body] using h.1.1

/-- Counterexample to C6 as stated: the TTS worker writes the raw PCM
bytes of a synthesized turn verbatim to its output channel, and those
raw bytes do not decode as a sentinel-plus-length-prefix frame. -/
theorem audio_not_length_prefixed :
    ttsAudioWrites (transcribe_speech (fun _ => Except.ok [1, 2, 3]) "hello").1 =
      [[1, 2, 3]] ∧
    decodeFramed [1, 2, 3] = none :=
  ⟨rfl, rfl⟩

theorem sttRunAux_connected_sends (send : Nat → List Nat → Except String Unit)
    (i : Nat) (reads : List (List Nat))
    (hok : ∀ j r, send j r = .ok ()) (hne : ∀ r ∈ reads, r ≠ []) :
    sttRunAux (fun _ => true) send i reads = reads.map SttEvent.sent := by
  induction reads generalizing i with
  | nil => rfl
  | cons r rest ih =>
    have hre : r.isEmpty = false := by
      simpa [List.isEmpty_eq_false] using hne r (by simp)
    simp [sttRunAux, hre, hok, ih (i + 1) fun r hr => hne r (by simp [hr])]

/-- Claim C6 as amended: binary audio payloads between the orchestrator
and the workers are raw unframed byte streams — the TTS worker writes
the synthesized PCM bytes verbatim to stdout, and the STT client
forwards each nonempty stdin read verbatim to the STT server — with no
length prefix and no sentinel byte. -/
theorem audio_raw_byte_stream (synth : String → Except String (List Nat))
    (text : String) (audio : List Nat) (reads : List (List Nat))
    (hok : synth (synthesize_text_of text) = .ok audio)
    (hne : ∀ r ∈ reads, r ≠ []) :
    ttsAudioWrites (transcribe_speech synth text).1 = [audio] ∧
    sttRun (fun _ => true) (fun _ _ => Except.ok ()) reads =
      reads.map SttEvent.sent := by
  constructor
  · simp [transcribe_speech, hok, ttsAudioWrites]
  · exact sttRunAux_connected_sends _ 0 reads (fun _ _ => rfl) hne

/-- Witness for the amended C6 at concrete inputs. -/
theorem audio_raw_byte_stream_witness :
    ttsAudioWrites (transcribe_speech (fun _ => Except.ok [9, 9]) "hi").1 = [[9, 9]] ∧
    sttRun (fun _ => true) (fun _ _ => Except.ok ()) [[1], [2]] =
      [SttEvent.sent [1], SttEvent.sent [2]] := by
  have h := audio_raw_byte_stream (fun _ => Except.ok [9, 9]) "hi" [9, 9]
    [[1], [2]] rfl (by decide)
  exact ⟨h.1, h.2⟩

/-- Counterexample to C7 as stated: a chunk arriving while the STT
WebSocket is not connected is discarded (with a log line), not held
back by a blocking write — the trace shows the drop and no send. -/
theorem disconnected_chunk_dropped :
    sttRun (fun _ => false) (fun _ _ => Except.ok ()) [[5]] = [SttEvent.logDropped] ∧
    SttEvent.sent [5] ∉ sttRun (fun _ => false) (fun _ _ => Except.ok ()) [[5]] :=
  ⟨rfl, by decide⟩

theorem sttRunAux_disconnected_drops (send : Nat → List Nat → Except String Unit)
    (i : Nat) (reads : List (List Nat)) (hne : ∀ r ∈ reads, r ≠ []) :
    sttRunAux (fun _ => false) send i reads =
      reads.map fun _ => SttEvent.logDropped := by
  induction reads generalizing i with
  | nil => rfl
  | cons r rest ih =>
    have hre : r.isEmpty = false := by
      simpa [List.isEmpty_eq_false] using hne r (by simp)
    simp [sttRunAux, hre, ih (i + 1) fun r hr => hne r (by simp [hr])]

/-- Claim C7 as amended: while the downstream WebSocket is unavailable,
every audio chunk is dropped with a logged warning — the producing
write does not block, retry or retain the chunk, and nothing is
forwarded to the worker. -/
theorem disconnected_drop_policy (send : Nat → List Nat → Except String Unit)
    (reads : List (List Nat)) (hne : ∀ r ∈ reads, r ≠ []) :
    sttRun (fun _ => false) send reads =
      reads.map fun _ => SttEvent.logDropped :=
  sttRunAux_disconnected_drops send 0 reads hne

/-- Witness for the amended C7 at concrete inputs. -/
theorem disconnected_drop_policy_witness :
    sttRun (fun _ => false) (fun _ _ => Except.ok ()) [[7], [8]] =
      [SttEvent.logDropped, SttEvent.logDropped] := by
  have h := disconnected_drop_policy (fun _ _ => Except.ok ()) [[7], [8]] (by decide)
  simpa using h

/-- Claim C8: the text passed to the synthesizer is never empty — the
routing envelope and metadata markers are stripped first, and when the
cleaned text is empty or whitespace-only the non-empty default phrase
is substituted before the synthesis call. -/
theorem synth_text_never_empty (text : String) :
    synthesize_text_of text ≠ "" ∧
    (cleaned_pre text = "" ∨ pyStrip (cleaned_pre text) = "" →
      synthesize_text_of text = "I'm here to assist you.") := by
  constructor
  · by_cases h : pyStrip (clean_text_of text) = ""
    · simp [synthesize_text_of, h]
    · simp [synthesize_text_of, h]
  · intro h
    have hclean : clean_text_of text = "I'm here to assist you." := by
      rcases h with h | h <;> simp [clean_text_of, h]
    simp only [synthesize_text_of, hclean]
    decide

/-- Witness for C8 at a concrete input: a whitespace-only input is
cleaned to the empty string and the default phrase is synthesized. -/
theorem synth_text_never_empty_witness :
    (cleaned_pre " " = "" ∨ pyStrip (cleaned_pre " ") = "") ∧
    synthesize_text_of " " = "I'm here to assist you." :=
  ⟨Or.inl (by decide), (synth_text_never_empty " ").2 (Or.inl (by decide))⟩

/-- Claim C9: without a vectorstore, or when the similarity search
raises, context retrieval returns the empty string; the prompt built
from an empty context is exactly the context-free template (no Context
section); and initialization with no documents yields no vectorstore —
the service degrades to general-knowledge answering. -/
theorem rag_degrades_gracefully (svc1 svc2 : RAGService)
    (search : String → Except String (List String)) (q q' e s p : String)
    (load : String → Except String String) (split : String → List String)
    (ft : List String → (String → Except String (List String)))
    (h1 : svc1.vectorstore = none)
    (h2 : svc2.vectorstore = some search) (hs : search q' = .error e) :
    get_context_for_query svc1 q = "" ∧
    get_context_for_query svc2 q' = "" ∧
    full_prompt s "" p = s ++ "\n\nQuestion: " ++ p ∧
    initialize_vectorstore [] load split ft = none := by
  refine ⟨?_, ?_, ?_, rfl⟩
  · simp [get_context_for_query, h1]
  · simp [get_context_for_query, h2, hs]
  · simp [full_prompt]

/-- Witness for C9 at concrete inputs: a service with no vectorstore
and one whose search raises both return empty context. -/
theorem rag_degrades_gracefully_witness :
    get_context_for_query ⟨none, fun _ => Except.ok "r"⟩ "q" = "" ∧
    get_context_for_query
      ⟨some fun _ => Except.error "index broken", fun _ => Except.ok "r"⟩ "q" = "" := by
  have h := rag_degrades_gracefully ⟨none, fun _ => Except.ok "r"⟩
    ⟨some fun _ => Except.error "index broken", fun _ => Except.ok "r"⟩
    (fun _ => Except.error "index broken") "q" "q" "index broken" "" ""
    (fun _ => Except.ok "") (fun _ => []) (fun _ _ => Except.ok [])
    rfl rfl rfl
  exact ⟨h.1, h.2.1⟩

theorem regFind_remove_ne (reg : Registry) (cid cid' : String) (h : cid' ≠ cid) :
    regFind (regRemove reg cid) cid' = regFind reg cid' := by
  induction reg with
  | nil => rfl
  | cons p rest ih =>
    by_cases h1 : p.1 = cid
    · have h2 : ¬p.1 = cid' := fun hh => h (hh ▸ h1)
      have h4 : ¬cid = cid' := fun hh => h hh.symm
      simp [regRemove, regFind, h1, h2, h4, ih]
    · simp only [regRemove, if_neg h1]
      by_cases h3 : p.1 = cid'
      · simp [regFind, h3]
      · simp [regFind, h3, ih]

theorem regFind_remove_self (reg : Registry) (cid : String) :
    regFind (regRemove reg cid) cid = none := by
  induction reg with
  | nil => rfl
  | cons p rest ih =>
    by_cases h1 : p.1 = cid
    · simpa [regRemove, h1] using ih
    · simpa [regRemove, regFind, h1] using ih

/-- Claim C10: a websocket handler's registry entry exists exactly for
the handler's lifetime — it is present right after accept, it is
removed by the finally block on every exit path of either endpoint, and
a handler run does not disturb other clients' entries. -/
theorem ws_registry_no_stale_entries (st : ServerState) (cid cid' : String)
    (tok : Nat) (e e' : HandlerExit) (hne : cid' ≠ cid) :
    regFind (websocket_stt_endpoint st cid tok e).stt_connections cid = none ∧
    regFind (websocket_tts_endpoint st cid tok e').tts_connections cid = none ∧
    regFind (handlerEntry st.stt_connections cid tok) cid = some tok ∧
    regFind (websocket_stt_endpoint st cid tok e).stt_connections cid' =
      regFind st.stt_connections cid' := by
  refine ⟨?_, ?_, ?_, ?_⟩
  · exact regFind_remove_self _ cid
  · exact regFind_remove_self _ cid
  · simp [handlerEntry, regInsert, regFind]
  · show regFind (regRemove (regInsert st.stt_connections cid tok) cid) cid' = _
    have hstep : regRemove (regInsert st.stt_connections cid tok) cid =
        regRemove (regRemove st.stt_connections cid) cid := by
      simp [regRemove, regInsert]
    rw [hstep, regFind_remove_ne _ cid cid' hne, regFind_remove_ne _ cid cid' hne]

/-- Witness for C10 at concrete inputs: after a handler for client b
exits, the registry holds no entry for b and client a's entry is
untouched. -/
theorem ws_registry_no_stale_entries_witness :
    regFind (websocket_stt_endpoint ⟨[("a", 1)], []⟩ "b" 2
      (.clientClosed "disconnect")).stt_connections "b" = none ∧
    regFind (websocket_stt_endpoint ⟨[("a", 1)], []⟩ "b" 2
      (.clientClosed "disconnect")).stt_connections "a" = some 1 := by
  have h := ws_registry_no_stale_entries ⟨[("a", 1)], []⟩ "b" "a" 2
    (.clientClosed "disconnect") (.clientClosed "disconnect") (by decide)
  refine ⟨h.1, ?_⟩
  rw [h.2.2.2]
  decide

end Genie
